import Mathlib

/-!
Verification development for the slot-filling dialogue engine in
`chatbot.py` (class `FinancialChatbot`).  The Python class is shallowly
embedded: the record of collected fields becomes an explicit structure,
each method becomes a pure function on an explicit session state, and the
external OpenAI extraction call becomes an oracle parameter.  The raised
IndexError that `names[0]` can produce on whitespace-only input is
modelled by returning `none` from the turn function.
-/

namespace Chatbot

/-- The applicant record: one member per key of the Python `self.fields`
dictionary.  Scalar fields are `Option String` (`None` in Python is
`none`); the three repeatable fields are `List String` (initialised to
`[]` in Python, so they are never `None`). -/
structure Record where
  loan_amount : Option String
  promotion_applied : Option String
  loan_purpose : Option String
  how_heard : Option String
  first_name : Option String
  last_name : Option String
  membership_status : Option String
  account_number : Option String
  telephone : Option String
  email : Option String
  date_of_birth : Option String
  marital_status : Option String
  whatsapp_opt_in : Option String
  employer_name : Option String
  self_employed : Option String
  primary_income : Option String
  additional_income : Option String
  total_income : Option String
  commitments : List String
  declaration : Option String
  uploaded_ids : List String
  uploaded_documents : List String
  reference1_name : Option String
  reference1_relation : Option String
  reference1_address : Option String
  reference1_contact : Option String
  reference1_occupation : Option String
  reference2_name : Option String
  reference2_relation : Option String
  reference2_address : Option String
  reference2_contact : Option String
  reference2_occupation : Option String
  deriving DecidableEq

/-- The fresh record built in `FinancialChatbot.__init__`: every scalar
field is `None`, every repeatable field is `[]`. -/
def initRecord : Record where
  loan_amount := none
  promotion_applied := none
  loan_purpose := none
  how_heard := none
  first_name := none
  last_name := none
  membership_status := none
  account_number := none
  telephone := none
  email := none
  date_of_birth := none
  marital_status := none
  whatsapp_opt_in := none
  employer_name := none
  self_employed := none
  primary_income := none
  additional_income := none
  total_income := none
  commitments := []
  declaration := none
  uploaded_ids := []
  uploaded_documents := []
  reference1_name := none
  reference1_relation := none
  reference1_address := none
  reference1_contact := none
  reference1_occupation := none
  reference2_name := none
  reference2_relation := none
  reference2_address := none
  reference2_contact := none
  reference2_occupation := none

/-- `self.conversation_order` from `__init__`: the Collection Plan. -/
def conversation_order : List String :=
  ["first_name", "last_name", "telephone", "email", "date_of_birth",
   "loan_amount", "loan_purpose", "membership_status",
   "marital_status", "employer_name", "self_employed",
   "primary_income", "additional_income",
   "reference1_name", "reference1_relation", "reference1_contact",
   "reference2_name", "reference2_relation", "reference2_contact",
   "declaration", "whatsapp_opt_in"]

/-- Dictionary read `self.fields[f]` restricted to the scalar keys.
Repeatable and unknown keys give `none`; the engine only reads scalar
keys through this function (the plan contains no repeatable field). -/
def getScalar (r : Record) (f : String) : Option String :=
  if f = "loan_amount" then r.loan_amount
  else if f = "promotion_applied" then r.promotion_applied
  else if f = "loan_purpose" then r.loan_purpose
  else if f = "how_heard" then r.how_heard
  else if f = "first_name" then r.first_name
  else if f = "last_name" then r.last_name
  else if f = "membership_status" then r.membership_status
  else if f = "account_number" then r.account_number
  else if f = "telephone" then r.telephone
  else if f = "email" then r.email
  else if f = "date_of_birth" then r.date_of_birth
  else if f = "marital_status" then r.marital_status
  else if f = "whatsapp_opt_in" then r.whatsapp_opt_in
  else if f = "employer_name" then r.employer_name
  else if f = "self_employed" then r.self_employed
  else if f = "primary_income" then r.primary_income
  else if f = "additional_income" then r.additional_income
  else if f = "total_income" then r.total_income
  else if f = "declaration" then r.declaration
  else if f = "reference1_name" then r.reference1_name
  else if f = "reference1_relation" then r.reference1_relation
  else if f = "reference1_address" then r.reference1_address
  else if f = "reference1_contact" then r.reference1_contact
  else if f = "reference1_occupation" then r.reference1_occupation
  else if f = "reference2_name" then r.reference2_name
  else if f = "reference2_relation" then r.reference2_relation
  else if f = "reference2_address" then r.reference2_address
  else if f = "reference2_contact" then r.reference2_contact
  else if f = "reference2_occupation" then r.reference2_occupation
  else none

/-- The test `self.fields[field] is None` used by the scan in
`get_next_missing_field`.  A repeatable field (a Python list) is never
`None`, hence `false`; scalar fields test their `Option`. -/
def isAbsent (r : Record) (f : String) : Bool :=
  if f = "commitments" ∨ f = "uploaded_ids" ∨ f = "uploaded_documents" then false
  else (getScalar r f).isNone

/-- Dictionary write `self.fields[f] = v` for a scalar key, as performed
by the default branch of `process_user_input`.  Only scalar keys ever
reach this assignment (the target always comes from the plan). -/
def setField (r : Record) (f : String) (v : String) : Record :=
  if f = "loan_amount" then { r with loan_amount := some v }
  else if f = "promotion_applied" then { r with promotion_applied := some v }
  else if f = "loan_purpose" then { r with loan_purpose := some v }
  else if f = "how_heard" then { r with how_heard := some v }
  else if f = "first_name" then { r with first_name := some v }
  else if f = "last_name" then { r with last_name := some v }
  else if f = "membership_status" then { r with membership_status := some v }
  else if f = "account_number" then { r with account_number := some v }
  else if f = "telephone" then { r with telephone := some v }
  else if f = "email" then { r with email := some v }
  else if f = "date_of_birth" then { r with date_of_birth := some v }
  else if f = "marital_status" then { r with marital_status := some v }
  else if f = "whatsapp_opt_in" then { r with whatsapp_opt_in := some v }
  else if f = "employer_name" then { r with employer_name := some v }
  else if f = "self_employed" then { r with self_employed := some v }
  else if f = "primary_income" then { r with primary_income := some v }
  else if f = "additional_income" then { r with additional_income := some v }
  else if f = "total_income" then { r with total_income := some v }
  else if f = "declaration" then { r with declaration := some v }
  else if f = "reference1_name" then { r with reference1_name := some v }
  else if f = "reference1_relation" then { r with reference1_relation := some v }
  else if f = "reference1_address" then { r with reference1_address := some v }
  else if f = "reference1_contact" then { r with reference1_contact := some v }
  else if f = "reference1_occupation" then { r with reference1_occupation := some v }
  else if f = "reference2_name" then { r with reference2_name := some v }
  else if f = "reference2_relation" then { r with reference2_relation := some v }
  else if f = "reference2_address" then { r with reference2_address := some v }
  else if f = "reference2_contact" then { r with reference2_contact := some v }
  else if f = "reference2_occupation" then { r with reference2_occupation := some v }
  else r

/-- The mutable session state of one `FinancialChatbot` instance:
`self.fields` and `self.current_index`. -/
structure ChatState where
  fields : Record
  current_index : Nat
  deriving DecidableEq

/-- The state right after `__init__`. -/
def initState : ChatState := { fields := initRecord, current_index := 0 }

/-- `get_next_missing_field`: scan `conversation_order[current_index:]`
in order and return the first field whose value is `None`; `none` when
the scan reaches the end of the plan. -/
def get_next_missing_field (st : ChatState) : Option String :=
  (conversation_order.drop st.current_index).find? (fun f => isAbsent st.fields f)

/-- `generate_question`: the static question table with its generic
fallback for a field missing from the table. -/
def generate_question (f : String) : String :=
  if f = "first_name" then "Could you please tell me your first name?"
  else if f = "last_name" then "What is your last name?"
  else if f = "telephone" then "What is the best contact number to reach you?"
  else if f = "email" then "What is your email address?"
  else if f = "date_of_birth" then "When were you born? (Please provide in DD/MM/YYYY format)"
  else if f = "loan_amount" then "What loan amount are you looking for and its purpose?"
  else if f = "loan_purpose" then "Could you elaborate on the purpose of your loan?"
  else if f = "membership_status" then "Are you currently a member of our program?"
  else if f = "marital_status" then "What is your marital status?"
  else if f = "employer_name" then "Who is your current employer?"
  else if f = "self_employed" then "Are you self-employed?"
  else if f = "primary_income" then "What is your primary monthly income?"
  else if f = "additional_income" then "Do you have any additional sources of income?"
  else if f = "reference1_name" then "Could you provide the name of your first reference?"
  else if f = "reference1_relation" then "What is your relationship with this reference?"
  else if f = "reference1_contact" then "What is the contact number for your first reference?"
  else if f = "reference2_name" then "Could you provide the name of your second reference?"
  else if f = "reference2_relation" then "What is your relationship with this second reference?"
  else if f = "reference2_contact" then "What is the contact number for your second reference?"
  else if f = "declaration" then "Do you agree to our terms and conditions?"
  else if f = "whatsapp_opt_in" then "Would you like to opt-in for WhatsApp notifications?"
  else "Please provide information about " ++ f

/-- The completion string returned when no plan field is outstanding. -/
def completionMessage : String :=
  "Thank you! Your application has been completed and saved."

/-- Result of one engine call: the state after the call, the reply text,
and whether `save_to_csv` was invoked during the call. -/
structure TurnResult where
  state : ChatState
  reply : String
  saved : Bool
  deriving DecidableEq

/-- `process_next_field`: ask for the next missing field, or persist and
report completion when none remains. -/
def process_next_field (st : ChatState) : TurnResult :=
  match get_next_missing_field st with
  | none => { state := st, reply := completionMessage, saved := true }
  | some f => { state := st, reply := generate_question f, saved := false }

/-- Helper list of whitespace-separated tokens, accumulating the current
token in reverse; models Python `str.split()` with no argument, which
drops empty tokens. -/
def splitTokens : List Char → List Char → List String
  | [], [] => []
  | [], acc => [String.mk acc.reverse]
  | c :: cs, acc =>
    if c.isWhitespace then
      match acc with
      | [] => splitTokens cs []
      | _ :: _ => String.mk acc.reverse :: splitTokens cs []
    else splitTokens cs (c :: acc)

/-- `user_input.split()` in Python: whitespace-separated tokens with no
empty tokens. -/
def pySplit (s : String) : List String := splitTokens s.data []

/-- Python `sep.join(l)`. -/
def pyJoin (sep : String) : List String → String
  | [] => ""
  | [x] => x
  | x :: y :: xs => x ++ sep ++ pyJoin sep (y :: xs)

/-- The extraction collaborator as seen by the engine: field name and raw
text in, extracted string or Python `None` out. -/
abbrev Oracle := String → String → Option String

/-- `process_user_input`, the turn-processing algorithm.  The oracle `o`
stands for `extract_details`.  Python truthiness of the extracted string
(`if extracted_value:`) is false for `None` and for the empty string.
The name branch fires when the target is `first_name` or `last_name`; it
splits the raw text, always writes the first token to `first_name`, and
when more tokens exist writes their join to `last_name` and performs the
extra pointer increment.  A whitespace-only raw text makes `names[0]`
raise IndexError before any mutation; this is the `none` result. -/
def process_user_input (o : Oracle) (st : ChatState) (user_input : String) :
    Option TurnResult :=
  match get_next_missing_field st with
  | none => some { state := st, reply := completionMessage, saved := true }
  | some next_field =>
    match o next_field user_input with
    | none => some { state := st, reply := generate_question next_field, saved := false }
    | some v =>
      if v = "" then
        some { state := st, reply := generate_question next_field, saved := false }
      else if next_field = "first_name" ∨ next_field = "last_name" then
        match pySplit user_input with
        | [] => none
        | [n0] =>
          some (process_next_field
            { fields := { st.fields with first_name := some n0 },
              current_index := st.current_index + 1 })
        | n0 :: rest =>
          some (process_next_field
            { fields :=
                { st.fields with
                  first_name := some n0
                  last_name := some (pyJoin " " rest) },
              current_index := st.current_index + 2 })
      else
        some (process_next_field
          { fields := setField st.fields next_field v,
            current_index := st.current_index + 1 })

/-- `handle_commitments`: append the raw text to the commitments list
(the Python `is not None` guard is always true because the list is
initialised to `[]` and never set to `None`), advance the pointer by one
and re-enter the main loop. -/
def handle_commitments (st : ChatState) (user_input : String) : TurnResult :=
  process_next_field
    { fields := { st.fields with commitments := st.fields.commitments ++ [user_input] },
      current_index := st.current_index + 1 }

/-- `handle_uploaded_files`: append the raw text to the named upload
list (no list is touched for any other field name), advance the pointer
by one and re-enter the main loop. -/
def handle_uploaded_files (st : ChatState) (field : String) (user_input : String) :
    TurnResult :=
  if field = "uploaded_ids" then
    process_next_field
      { fields := { st.fields with uploaded_ids := st.fields.uploaded_ids ++ [user_input] },
        current_index := st.current_index + 1 }
  else if field = "uploaded_documents" then
    process_next_field
      { fields := { st.fields with uploaded_documents := st.fields.uploaded_documents ++ [user_input] },
        current_index := st.current_index + 1 }
  else
    process_next_field { fields := st.fields, current_index := st.current_index + 1 }

/-- `extract_details`: wrap the OpenAI call.  The transport is a function
returning `Except`: an `error` is the raised exception, which the method
catches and converts to `None`; an `ok` reply is stripped, and the
literal answer `none` (case-insensitively) is converted to `None`. -/
def extract_details (api : String → String → Except String String)
    (field : String) (user_input : String) : Option String :=
  match api field user_input with
  | Except.error _ => none
  | Except.ok raw =>
    let v := raw.trim
    if v.toLower = "none" then none else some v

/-- One observable operation of the engine: a processed turn with some
oracle and raw text (when it does not raise), or one of the two
repeatable-field entry points. -/
inductive Step : ChatState → ChatState → Prop where
  | turn (o : Oracle) (st : ChatState) (input : String) (r : TurnResult) :
      process_user_input o st input = some r → Step st r.state
  | commitments (st : ChatState) (input : String) :
      Step st (handle_commitments st input).state
  | upload (st : ChatState) (field input : String) :
      Step st (handle_uploaded_files st field input).state

/-- A session state reachable from a fresh engine by engine operations. -/
def Reachable (st : ChatState) : Prop :=
  Relation.ReflTransGen Step initState st

/-- Number of plan fields currently holding a non-absent value. -/
def countFilled (st : ChatState) : Nat :=
  (conversation_order.filter (fun f => !(isAbsent st.fields f))).length

/-- The session state after n successive `handle_commitments` calls on a
fresh engine. -/
def commitN : Nat → ChatState
  | 0 => initState
  | n + 1 => (handle_commitments (commitN n) "gym membership").state

/-- A record with every scalar field filled: a completed application. -/
def fullRecord : Record where
  loan_amount := some "5000"
  promotion_applied := some "no"
  loan_purpose := some "car"
  how_heard := some "web"
  first_name := some "Jane"
  last_name := some "Doe"
  membership_status := some "member"
  account_number := some "42"
  telephone := some "5550100"
  email := some "jane@example.com"
  date_of_birth := some "01/01/1990"
  marital_status := some "single"
  whatsapp_opt_in := some "yes"
  employer_name := some "Acme"
  self_employed := some "no"
  primary_income := some "1000"
  additional_income := some "0"
  total_income := some "1000"
  commitments := []
  declaration := some "yes"
  uploaded_ids := []
  uploaded_documents := []
  reference1_name := some "Alice"
  reference1_relation := some "friend"
  reference1_address := some "1 Main St"
  reference1_contact := some "5550101"
  reference1_occupation := some "baker"
  reference2_name := some "Bob"
  reference2_relation := some "cousin"
  reference2_address := some "2 Main St"
  reference2_contact := some "5550102"
  reference2_occupation := some "tailor"

/-- A session state whose plan is entirely filled. -/
def stFull : ChatState := { fields := fullRecord, current_index := 0 }

/-- A state where the first name is filled but the pointer still sits at
position 0, so the next outstanding field is strictly past the pointer. -/
def stPastPointer : ChatState :=
  { fields := { initRecord with first_name := some "Ann" }, current_index := 0 }

/-- The state produced by a first turn on a fresh engine whose raw text
is the single token Jane: first name filled, pointer at 1. -/
def stAfterJane : ChatState :=
  { fields := { initRecord with first_name := some "Jane" }, current_index := 1 }

/-! ### Basic lemmas about the engine functions -/

theorem pnf_state (st : ChatState) : (process_next_field st).state = st := by
  unfold process_next_field
  cases get_next_missing_field st <;> rfl

theorem pnf_saved (st : ChatState) :
    (process_next_field st).saved = true ↔ get_next_missing_field st = none := by
  unfold process_next_field
  cases hg : get_next_missing_field st <;> simp

theorem getScalar_commitments (r : Record) (c : List String) (g : String)
    (hg : g ∈ conversation_order) :
    getScalar { r with commitments := c } g = getScalar r g := by
  fin_cases hg <;> rfl

theorem getScalar_uploaded_ids (r : Record) (c : List String) (g : String)
    (hg : g ∈ conversation_order) :
    getScalar { r with uploaded_ids := c } g = getScalar r g := by
  fin_cases hg <;> rfl

theorem getScalar_uploaded_documents (r : Record) (c : List String) (g : String)
    (hg : g ∈ conversation_order) :
    getScalar { r with uploaded_documents := c } g = getScalar r g := by
  fin_cases hg <;> rfl

theorem getScalar_set_first_name (r : Record) (x : Option String) (g : String)
    (hg : g ∈ conversation_order) (h : g ≠ "first_name") :
    getScalar { r with first_name := x } g = getScalar r g := by
  fin_cases hg <;> first | rfl | exact absurd rfl h

theorem setField_first_name (r : Record) (v : String) (f : String)
    (hf : f ∈ conversation_order) (h : f ≠ "first_name") :
    (setField r f v).first_name = r.first_name := by
  fin_cases hf <;> first | rfl | exact absurd rfl h

theorem setField_last_name (r : Record) (v : String) (f : String)
    (hf : f ∈ conversation_order) (h : f ≠ "last_name") :
    (setField r f v).last_name = r.last_name := by
  fin_cases hf <;> first | rfl | exact absurd rfl h

theorem isAbsent_eq_of_getScalar_eq (r r' : Record) (g : String)
    (h : getScalar r' g = getScalar r g) : isAbsent r' g = isAbsent r g := by
  unfold isAbsent
  split_ifs <;> simp [h]

theorem find?_congr_mem (p q : String → Bool) (l : List String)
    (h : ∀ x ∈ l, p x = q x) : l.find? p = l.find? q := by
  induction l with
  | nil => rfl
  | cons a t ih =>
    have ha := h a (by simp)
    cases hq : q a with
    | true =>
      rw [List.find?_cons_of_pos t (ha.trans hq), List.find?_cons_of_pos t hq]
    | false =>
      rw [List.find?_cons_of_neg t (by simp [ha, hq]), List.find?_cons_of_neg t (by simp [hq]),
        ih (fun x hx => h x (by simp [hx]))]

theorem find?_drop_succ (p : String → Bool) (l : List String) (i : Nat) (f : String)
    (h : (l.drop i).find? p = some f) (hne : l[i]? ≠ some f) :
    (l.drop (i + 1)).find? p = some f := by
  by_cases hi : i < l.length
  · rw [List.drop_eq_getElem_cons hi] at h
    by_cases hp : p l[i] = true
    · rw [List.find?_cons_of_pos _ hp] at h
      exact absurd ((List.getElem?_eq_getElem hi).trans h) hne
    · rw [List.find?_cons_of_neg _ hp] at h
      exact h
  · rw [List.drop_eq_nil_of_le (Nat.le_of_not_lt hi)] at h
    exact absurd h (by simp)

theorem get_next_mem (st : ChatState) (f : String)
    (h : get_next_missing_field st = some f) : f ∈ conversation_order :=
  List.drop_subset _ _ (List.mem_of_find?_eq_some h)

theorem get_next_absent (st : ChatState) (f : String)
    (h : get_next_missing_field st = some f) : isAbsent st.fields f = true :=
  List.find?_some h

theorem first_name_target_index (st : ChatState)
    (h : get_next_missing_field st = some "first_name") : st.current_index = 0 := by
  by_contra h0
  have h1 : 1 ≤ st.current_index := Nat.one_le_iff_ne_zero.mpr h0
  have hmem : "first_name" ∈ conversation_order.drop st.current_index :=
    List.mem_of_find?_eq_some h
  have he : (conversation_order.drop 1).drop (st.current_index - 1)
      = conversation_order.drop st.current_index := by
    rw [List.drop_drop]
    congr 1
    omega
  rw [← he] at hmem
  exact absurd (List.drop_subset _ _ hmem) (by decide)

/-- Exhaustive case analysis of a non-raising `process_user_input` call:
completion, reprompt, single-token name branch, multi-token name branch,
or default assignment. -/
theorem process_shape (o : Oracle) (st : ChatState) (input : String) (r : TurnResult)
    (h : process_user_input o st input = some r) :
    (get_next_missing_field st = none ∧ r = ⟨st, completionMessage, true⟩) ∨
    (∃ nf, get_next_missing_field st = some nf ∧ r = ⟨st, generate_question nf, false⟩) ∨
    (∃ nf n0 rest, get_next_missing_field st = some nf ∧
      (nf = "first_name" ∨ nf = "last_name") ∧ pySplit input = n0 :: rest ∧
      ((rest = [] ∧
        r = process_next_field
          { fields := { st.fields with first_name := some n0 },
            current_index := st.current_index + 1 }) ∨
       (rest ≠ [] ∧
        r = process_next_field
          { fields :=
              { st.fields with
                first_name := some n0
                last_name := some (pyJoin " " rest) },
            current_index := st.current_index + 2 }))) ∨
    (∃ nf v, get_next_missing_field st = some nf ∧ nf ≠ "first_name" ∧ nf ≠ "last_name" ∧
      o nf input = some v ∧ v ≠ "" ∧
      r = process_next_field
        { fields := setField st.fields nf v, current_index := st.current_index + 1 }) := by
  unfold process_user_input at h
  cases hg : get_next_missing_field st with
  | none =>
    rw [hg] at h
    dsimp only at h
    exact Or.inl ⟨rfl, (Option.some.inj h).symm⟩
  | some nf =>
    rw [hg] at h
    dsimp only at h
    cases ho : o nf input with
    | none =>
      rw [ho] at h
      dsimp only at h
      exact Or.inr (Or.inl ⟨nf, rfl, (Option.some.inj h).symm⟩)
    | some v =>
      rw [ho] at h
      dsimp only at h
      by_cases hv : v = ""
      · rw [if_pos hv] at h
        exact Or.inr (Or.inl ⟨nf, rfl, (Option.some.inj h).symm⟩)
      · rw [if_neg hv] at h
        by_cases hname : nf = "first_name" ∨ nf = "last_name"
        · rw [if_pos hname] at h
          cases hs : pySplit input with
          | nil =>
            rw [hs] at h
            exact Option.noConfusion h
          | cons n0 rest =>
            rw [hs] at h
            cases rest with
            | nil =>
              exact Or.inr (Or.inr (Or.inl ⟨nf, n0, [], rfl, hname, rfl,
                Or.inl ⟨rfl, (Option.some.inj h).symm⟩⟩))
            | cons y ys =>
              exact Or.inr (Or.inr (Or.inl ⟨nf, n0, y :: ys, rfl, hname, rfl,
                Or.inr ⟨by simp, (Option.some.inj h).symm⟩⟩))
        · rw [if_neg hname] at h
          push_neg at hname
          exact Or.inr (Or.inr (Or.inr ⟨nf, v, rfl, hname.1, hname.2, ho, hv,
            (Option.some.inj h).symm⟩))

theorem commit_state (st : ChatState) (input : String) :
    (handle_commitments st input).state =
      { fields := { st.fields with commitments := st.fields.commitments ++ [input] },
        current_index := st.current_index + 1 } := by
  unfold handle_commitments
  rw [pnf_state]

theorem upload_index (st : ChatState) (field input : String) :
    (handle_uploaded_files st field input).state.current_index = st.current_index + 1 := by
  unfold handle_uploaded_files
  split_ifs <;> rw [pnf_state]

theorem upload_getScalar (st : ChatState) (field input g : String)
    (hg : g ∈ conversation_order) :
    getScalar (handle_uploaded_files st field input).state.fields g
      = getScalar st.fields g := by
  unfold handle_uploaded_files
  split_ifs with h1 h2
  · rw [pnf_state]
    exact getScalar_uploaded_ids _ _ _ hg
  · rw [pnf_state]
    exact getScalar_uploaded_documents _ _ _ hg
  · rw [pnf_state]

theorem upload_first_name (st : ChatState) (field input : String) :
    (handle_uploaded_files st field input).state.fields.first_name
      = st.fields.first_name := by
  unfold handle_uploaded_files
  split_ifs <;> rw [pnf_state]

theorem upload_last_name (st : ChatState) (field input : String) :
    (handle_uploaded_files st field input).state.fields.last_name
      = st.fields.last_name := by
  unfold handle_uploaded_files
  split_ifs <;> rw [pnf_state]

/-- One engine operation preserves the coupled name invariant: while the
first name is absent the last name is absent too, and once the first
name is filled the pointer has moved to at least 1. -/
theorem step_name_inv (st st' : ChatState) (h : Step st st')
    (ih1 : st.fields.first_name = none → st.fields.last_name = none)
    (ih2 : st.fields.first_name ≠ none → 1 ≤ st.current_index) :
    (st'.fields.first_name = none → st'.fields.last_name = none) ∧
    (st'.fields.first_name ≠ none → 1 ≤ st'.current_index) := by
  cases h with
  | turn o st2 input r hp =>
    rcases process_shape o st input r hp with
      ⟨hg, hr⟩ | ⟨nf, hg, hr⟩ | ⟨nf, n0, rest, hg, hname, hs, hcase⟩ |
      ⟨nf, v, hg, hn1, hn2, ho, hv, hr⟩
    · rw [hr]
      exact ⟨ih1, ih2⟩
    · rw [hr]
      exact ⟨ih1, ih2⟩
    · rcases hcase with ⟨hrest, hr⟩ | ⟨hrest, hr⟩ <;>
        rw [hr, pnf_state] <;>
        exact ⟨fun hfn => Option.noConfusion hfn, fun _ => Nat.succ_le_succ (Nat.zero_le _)⟩
    · rw [hr, pnf_state]
      have hmem : nf ∈ conversation_order := get_next_mem st nf hg
      have hfe : (setField st.fields nf v).first_name = st.fields.first_name :=
        setField_first_name _ _ _ hmem hn1
      have hle : (setField st.fields nf v).last_name = st.fields.last_name :=
        setField_last_name _ _ _ hmem hn2
      constructor
      · intro hfn
        show (setField st.fields nf v).last_name = none
        rw [hle]
        exact ih1 (hfe ▸ hfn)
      · intro _
        exact Nat.succ_le_succ (Nat.zero_le _)
  | commitments st2 input =>
    rw [commit_state]
    exact ⟨ih1, fun _ => Nat.succ_le_succ (Nat.zero_le _)⟩
  | upload st2 field input =>
    constructor
    · intro hfn
      rw [upload_first_name] at hfn
      rw [upload_last_name]
      exact ih1 hfn
    · intro _
      rw [upload_index]
      exact Nat.succ_le_succ (Nat.zero_le _)

/-- The coupled name invariant holds in every reachable session state. -/
theorem reachable_name_inv (st : ChatState) (h : Reachable st) :
    (st.fields.first_name = none → st.fields.last_name = none) ∧
    (st.fields.first_name ≠ none → 1 ≤ st.current_index) := by
  induction h with
  | refl => exact ⟨fun _ => rfl, fun hc => absurd rfl hc⟩
  | tail _ hstep ih => exact step_name_inv _ _ hstep ih.1 ih.2

/-- Every state in the chain of repeatable-field calls is reachable. -/
theorem reachable_commitN (n : Nat) : Reachable (commitN n) := by
  induction n with
  | zero => exact Relation.ReflTransGen.refl
  | succ n ih =>
    exact Relation.ReflTransGen.tail ih (Step.commitments (commitN n) "gym membership")

/-! ### Claim theorems -/

/-- Claim C4: if the extraction collaborator returns the absence marker
for the current target field, `process_user_input` returns exactly the
question template for that target (the same prompt that preceded the
turn) and leaves every record field and the progression pointer
unchanged: the returned state is the input state. -/
theorem C4_absent_reprompt (o : Oracle) (st : ChatState) (input f : String)
    (h : get_next_missing_field st = some f) (ho : o f input = none) :
    process_user_input o st input
      = some { state := st, reply := generate_question f, saved := false } := by
  unfold process_user_input
  rw [h]
  dsimp only
  rw [ho]

/-- Witness for C4 on a fresh engine with an oracle that extracts
nothing. -/
theorem C4_absent_reprompt_witness :
    process_user_input (fun _ _ => none) initState "hello"
      = some { state := initState, reply := generate_question "first_name", saved := false } :=
  C4_absent_reprompt (fun _ _ => none) initState "hello" "first_name" (by decide) rfl

/-- Claim C8: `get_next_missing_field` reads only the record and the
pointer and mutates nothing (in the embedding it is a function of the
state), so two calls on the same record and pointer with no intervening
mutation return the same field or `none` both times. -/
theorem C8_deterministic (st1 st2 : ChatState)
    (hf : st1.fields = st2.fields) (hi : st1.current_index = st2.current_index) :
    get_next_missing_field st1 = get_next_missing_field st2 := by
  cases st1
  cases st2
  cases hf
  cases hi
  rfl

/-- Witness for C8 at the fresh session state. -/
theorem C8_deterministic_witness :
    get_next_missing_field initState = get_next_missing_field initState :=
  C8_deterministic initState initState rfl rfl

/-- Claim C9: a transport or service failure in the extraction call is
caught inside `extract_details` and converted to the absence marker, so
the engine reprompts with the question for the target; no failure
propagates and no error reply is produced. -/
theorem C9_failure_reprompt (api : String → String → Except String String)
    (st : ChatState) (input f e : String)
    (h : get_next_missing_field st = some f)
    (herr : api f input = Except.error e) :
    extract_details api f input = none ∧
    process_user_input (extract_details api) st input
      = some { state := st, reply := generate_question f, saved := false } := by
  have hx : extract_details api f input = none := by
    unfold extract_details
    rw [herr]
  refine ⟨hx, ?_⟩
  unfold process_user_input
  rw [h]
  dsimp only
  rw [hx]

/-- Witness for C9 with an always-failing transport. -/
theorem C9_failure_reprompt_witness :
    extract_details (fun _ _ => Except.error "boom") "first_name" "hello" = none ∧
    process_user_input (extract_details (fun _ _ => Except.error "boom")) initState "hello"
      = some { state := initState, reply := generate_question "first_name", saved := false } :=
  C9_failure_reprompt (fun _ _ => Except.error "boom") initState "hello" "first_name" "boom"
    (by decide) rfl

/-- Claim C7: once every plan field is non-absent, a `process_user_input`
call with any raw text invokes the persistence sink (`saved = true`) and
returns the completion message, with the state unchanged; since the state
is unchanged, every subsequent call does the same, so persistence is not
de-duplicated across calls. -/
theorem C7_complete_saves (o : Oracle) (st : ChatState) (input : String)
    (h : ∀ f ∈ conversation_order, isAbsent st.fields f = false) :
    process_user_input o st input
      = some { state := st, reply := completionMessage, saved := true } := by
  have hg : get_next_missing_field st = none := by
    apply List.find?_eq_none.mpr
    intro x hx
    have hfx := h x (List.drop_subset _ _ hx)
    simp [hfx]
  unfold process_user_input
  rw [hg]

/-- Witness for C7 at a fully filled record. -/
theorem C7_complete_saves_witness :
    process_user_input (fun _ _ => none) stFull "anything"
      = some { state := stFull, reply := completionMessage, saved := true } :=
  C7_complete_saves (fun _ _ => none) stFull "anything" (by decide)

/-- Claim C5: with raw text Jane Doe targeting the first name field and
a truthy extraction result, one turn fills first_name with Jane and
last_name with Doe, and the pointer advances by two plan positions. -/
theorem C5_fullname (o : Oracle) (st : ChatState) (v : String)
    (h : get_next_missing_field st = some "first_name")
    (ho : o "first_name" "Jane Doe" = some v) (hv : v ≠ "") :
    (process_user_input o st "Jane Doe").map
      (fun r => (r.state.fields.first_name, r.state.fields.last_name, r.state.current_index))
      = some (some "Jane", some "Doe", st.current_index + 2) := by
  unfold process_user_input
  rw [h]
  dsimp only
  rw [ho]
  dsimp only
  rw [if_neg hv, if_pos (Or.inl rfl)]
  have hsplit : pySplit "Jane Doe" = ["Jane", "Doe"] := rfl
  rw [hsplit]
  dsimp only [Option.map]
  rw [pnf_state]
  rfl

/-- Witness for C5 on a fresh engine. -/
theorem C5_fullname_witness :
    (process_user_input (fun _ _ => some "Jane Doe") initState "Jane Doe").map
      (fun r => (r.state.fields.first_name, r.state.fields.last_name, r.state.current_index))
      = some (some "Jane", some "Doe", initState.current_index + 2) :=
  C5_fullname (fun _ _ => some "Jane Doe") initState "Jane Doe" (by decide) rfl (by decide)

/-- A turn that reports persistence has no outstanding plan field left in
its final state. -/
theorem process_saved (o : Oracle) (st : ChatState) (input : String) (r : TurnResult)
    (h : process_user_input o st input = some r) (hs : r.saved = true) :
    get_next_missing_field r.state = none := by
  rcases process_shape o st input r h with
    ⟨hg, hr⟩ | ⟨nf, hg, hr⟩ | ⟨nf, n0, rest, hg, hname, hsp, hcase⟩ |
    ⟨nf, v, hg, hn1, hn2, ho, hv, hr⟩
  · rw [hr]
    exact hg
  · rw [hr] at hs
    simp at hs
  · rcases hcase with ⟨hrest, hr⟩ | ⟨hrest, hr⟩ <;>
      (rw [hr] at hs ⊢; rw [pnf_state]; exact (pnf_saved _).mp hs)
  · rw [hr] at hs ⊢
    rw [pnf_state]
    exact (pnf_saved _).mp hs

/-- The one-turn state with the first name filled is reachable. -/
theorem reachable_stAfterJane : Reachable stAfterJane :=
  Relation.ReflTransGen.single
    (Step.turn (fun _ _ => some "Jane") initState "Jane"
      { state := stAfterJane, reply := generate_question "last_name", saved := false }
      (by decide))

/-- Claim C6: with the single-token raw text Jane targeting the first
name field in a reachable session and a truthy extraction result, the
turn fills first_name with Jane, leaves every other plan field unchanged,
and the next scan returns the second name field, which is still
outstanding. -/
theorem C6_single_token (o : Oracle) (st : ChatState) (v : String)
    (hr : Reachable st)
    (h : get_next_missing_field st = some "first_name")
    (ho : o "first_name" "Jane" = some v) (hv : v ≠ "") :
    (process_user_input o st "Jane").map
      (fun r => (r.state.fields.first_name, get_next_missing_field r.state))
      = some (some "Jane", some "last_name") ∧
    ∀ g ∈ conversation_order, g ≠ "first_name" →
      (process_user_input o st "Jane").map (fun r => getScalar r.state.fields g)
        = some (getScalar st.fields g) := by
  have hidx : st.current_index = 0 := first_name_target_index st h
  have hfn : st.fields.first_name = none := by
    have habs := get_next_absent st _ h
    have hred : isAbsent st.fields "first_name" = st.fields.first_name.isNone := rfl
    rw [hred] at habs
    exact Option.isNone_iff_eq_none.mp habs
  have hln : st.fields.last_name = none := (reachable_name_inv st hr).1 hfn
  have heq : process_user_input o st "Jane" = some (process_next_field
      { fields := { st.fields with first_name := some "Jane" },
        current_index := st.current_index + 1 }) := by
    unfold process_user_input
    rw [h]
    dsimp only
    rw [ho]
    dsimp only
    rw [if_neg hv, if_pos (Or.inl rfl)]
    have hsplit : pySplit "Jane" = ["Jane"] := rfl
    rw [hsplit]
  constructor
  · rw [heq]
    dsimp only [Option.map]
    rw [pnf_state]
    have hnext : get_next_missing_field
        { fields := { st.fields with first_name := some "Jane" },
          current_index := st.current_index + 1 } = some "last_name" := by
      unfold get_next_missing_field
      rw [hidx]
      have hdrop : conversation_order.drop (0 + 1)
          = "last_name" :: conversation_order.drop 2 := rfl
      rw [hdrop]
      apply List.find?_cons_of_pos
      show ({ st.fields with first_name := some "Jane" } : Record).last_name.isNone = true
      show st.fields.last_name.isNone = true
      rw [hln]
      rfl
    rw [hnext]
  · intro g hg hne
    rw [heq]
    dsimp only [Option.map]
    rw [pnf_state]
    exact congrArg some (getScalar_set_first_name st.fields (some "Jane") g hg hne)

/-- Witness for C6 on a fresh engine. -/
theorem C6_single_token_witness :
    (process_user_input (fun _ _ => some "Jane") initState "Jane").map
      (fun r => (r.state.fields.first_name, get_next_missing_field r.state))
      = some (some "Jane", some "last_name") :=
  (C6_single_token (fun _ _ => some "Jane") initState "Jane"
    Relation.ReflTransGen.refl (by decide) rfl (by decide)).1

/-- Claim C10: in a reachable session where first_name is already filled
and last_name is the next outstanding field, a turn with a truthy
extraction overwrites first_name with the first whitespace token of the
raw text; and when the raw text is a single token, last_name stays absent
while the pointer advances past the plan position of last_name
(position 1). -/
theorem C10_last_name_overwrite (o : Oracle) (st : ChatState)
    (input v n0 : String) (rest : List String) (hr : Reachable st)
    (hfn : st.fields.first_name ≠ none)
    (h : get_next_missing_field st = some "last_name")
    (ho : o "last_name" input = some v) (hv : v ≠ "")
    (hs : pySplit input = n0 :: rest) :
    (process_user_input o st input).map (fun r => r.state.fields.first_name)
      = some (some n0) ∧
    (rest = [] →
      (process_user_input o st input).map
        (fun r => (r.state.fields.last_name, r.state.current_index))
        = some (none, st.current_index + 1) ∧
      conversation_order[1]? = some "last_name" ∧
      1 < st.current_index + 1) := by
  have hidx : 1 ≤ st.current_index := (reachable_name_inv st hr).2 hfn
  have hln : st.fields.last_name = none := by
    have habs := get_next_absent st _ h
    have hred : isAbsent st.fields "last_name" = st.fields.last_name.isNone := rfl
    rw [hred] at habs
    exact Option.isNone_iff_eq_none.mp habs
  cases rest with
  | nil =>
    have heq : process_user_input o st input = some (process_next_field
        { fields := { st.fields with first_name := some n0 },
          current_index := st.current_index + 1 }) := by
      unfold process_user_input
      rw [h]
      dsimp only
      rw [ho]
      dsimp only
      rw [if_neg hv, if_pos (Or.inr rfl)]
      rw [hs]
    constructor
    · rw [heq]
      dsimp only [Option.map]
      rw [pnf_state]
    · intro _
      refine ⟨?_, rfl, ?_⟩
      · rw [heq]
        dsimp only [Option.map]
        rw [pnf_state]
        show some (st.fields.last_name, st.current_index + 1)
          = some (none, st.current_index + 1)
        rw [hln]
      · omega
  | cons y ys =>
    have heq : process_user_input o st input = some (process_next_field
        { fields :=
            { st.fields with
              first_name := some n0
              last_name := some (pyJoin " " (y :: ys)) },
          current_index := st.current_index + 2 }) := by
      unfold process_user_input
      rw [h]
      dsimp only
      rw [ho]
      dsimp only
      rw [if_neg hv, if_pos (Or.inr rfl)]
      rw [hs]
    constructor
    · rw [heq]
      dsimp only [Option.map]
      rw [pnf_state]
    · intro hnil
      exact absurd hnil (by simp)

/-- Witness for C10 one step after the single-token Jane turn. -/
theorem C10_last_name_overwrite_witness :
    (process_user_input (fun _ _ => some "Smith") stAfterJane "Smith").map
      (fun r => r.state.fields.first_name) = some (some "Smith") :=
  (C10_last_name_overwrite (fun _ _ => some "Smith") stAfterJane "Smith" "Smith" "Smith" []
    reachable_stAfterJane (by decide) (by decide) rfl (by decide) rfl).1

/-- Claim C1, amended: when `process_user_input` triggers persistence and
returns the completion message, every plan field at a position at or
beyond the final progression pointer is non-absent; plan fields below the
pointer may remain absent, because the scan starts at the pointer. -/
theorem C1_completion_pointer_suffix (o : Oracle) (st : ChatState) (input : String)
    (r : TurnResult) (h : process_user_input o st input = some r)
    (hs : r.saved = true) :
    ∀ f ∈ conversation_order.drop r.state.current_index,
      isAbsent r.state.fields f = false := by
  have hg := process_saved o st input r h hs
  unfold get_next_missing_field at hg
  intro f hf
  have hnp := List.find?_eq_none.mp hg f hf
  simpa using hnp

/-- Witness for the amended C1 at a fully filled record. -/
theorem C1_completion_pointer_suffix_witness :
    isAbsent stFull.fields "first_name" = false :=
  C1_completion_pointer_suffix (fun _ _ => none) stFull "done"
    { state := stFull, reply := completionMessage, saved := true } (by decide) rfl
    "first_name" (by decide)

/-- Counterexample to claim C1 as stated: after twenty-one
`handle_commitments` calls, a reachable session state, the turn function
returns the completion message and triggers persistence while the plan
field first_name is still absent. -/
theorem C1_completion_counterexample :
    Reachable (commitN 21) ∧
    process_user_input (fun _ _ => none) (commitN 21) "anything"
      = some { state := commitN 21, reply := completionMessage, saved := true } ∧
    isAbsent (commitN 21).fields "first_name" = true :=
  ⟨reachable_commitN 21, by decide, by decide⟩

/-- Claim C2, amended: `handle_commitments` and `handle_uploaded_files`
never mutate any plan field and advance the pointer by exactly one, so
the next outstanding plan field is preserved whenever it does not sit at
the old pointer position; when it does sit there, it is skipped. -/
theorem C2_repeatable_frame (st : ChatState) (field input : String) (f : String)
    (h : get_next_missing_field st = some f)
    (hpos : conversation_order[st.current_index]? ≠ some f) :
    (∀ g ∈ conversation_order,
      getScalar (handle_commitments st input).state.fields g = getScalar st.fields g) ∧
    (handle_commitments st input).state.current_index = st.current_index + 1 ∧
    get_next_missing_field (handle_commitments st input).state = some f ∧
    (∀ g ∈ conversation_order,
      getScalar (handle_uploaded_files st field input).state.fields g
        = getScalar st.fields g) ∧
    (handle_uploaded_files st field input).state.current_index = st.current_index + 1 ∧
    get_next_missing_field (handle_uploaded_files st field input).state = some f := by
  have hcf : ∀ g ∈ conversation_order,
      getScalar (handle_commitments st input).state.fields g = getScalar st.fields g := by
    intro g hg
    rw [commit_state]
    exact getScalar_commitments _ _ _ hg
  have huf : ∀ g ∈ conversation_order,
      getScalar (handle_uploaded_files st field input).state.fields g
        = getScalar st.fields g :=
    fun g hg => upload_getScalar st field input g hg
  have hci : (handle_commitments st input).state.current_index = st.current_index + 1 := by
    rw [commit_state]
  have hui := upload_index st field input
  unfold get_next_missing_field at h
  have hfind : (conversation_order.drop (st.current_index + 1)).find?
      (fun g => isAbsent st.fields g) = some f :=
    find?_drop_succ _ _ _ _ h hpos
  have hnc : get_next_missing_field (handle_commitments st input).state = some f := by
    unfold get_next_missing_field
    rw [hci]
    rw [find?_congr_mem
      (fun g => isAbsent (handle_commitments st input).state.fields g)
      (fun g => isAbsent st.fields g) _
      (fun x hx => isAbsent_eq_of_getScalar_eq _ _ x
        (hcf x (List.drop_subset _ _ hx)))]
    exact hfind
  have hnu : get_next_missing_field (handle_uploaded_files st field input).state = some f := by
    unfold get_next_missing_field
    rw [hui]
    rw [find?_congr_mem
      (fun g => isAbsent (handle_uploaded_files st field input).state.fields g)
      (fun g => isAbsent st.fields g) _
      (fun x hx => isAbsent_eq_of_getScalar_eq _ _ x
        (huf x (List.drop_subset _ _ hx)))]
    exact hfind
  exact ⟨hcf, hci, hnc, huf, hui, hnu⟩

/-- Witness for the amended C2 at a state whose next outstanding field is
past the pointer. -/
theorem C2_repeatable_frame_witness :
    (handle_commitments stPastPointer "gym").state.current_index
        = stPastPointer.current_index + 1 ∧
    get_next_missing_field (handle_commitments stPastPointer "gym").state
        = some "last_name" :=
  ⟨(C2_repeatable_frame stPastPointer "uploaded_ids" "gym" "last_name"
      (by decide) (by decide)).2.1,
   (C2_repeatable_frame stPastPointer "uploaded_ids" "gym" "last_name"
      (by decide) (by decide)).2.2.1⟩

/-- Counterexample to claim C2 as stated: on a fresh engine the next
outstanding plan field is first_name, and one `handle_commitments` call
changes the next outstanding plan field to last_name, so the call does
advance the pointer past the previously outstanding plan field. -/
theorem C2_repeatable_counterexample :
    get_next_missing_field initState = some "first_name" ∧
    get_next_missing_field (handle_commitments initState "gym").state = some "last_name" ∧
    get_next_missing_field (handle_commitments initState "gym").state
      ≠ get_next_missing_field initState :=
  ⟨by decide, by decide, by decide⟩

/-- Claim C3, amended: across every engine operation the progression
pointer is monotonically non-decreasing, and one operation advances it by
at most two; the advance is not one-per-newly-filled-plan-field, because
the repeatable-field handlers and the single-token name turn advance the
pointer without filling any plan field. -/
theorem C3_pointer_monotone (st st2 : ChatState) (h : Step st st2) :
    st.current_index ≤ st2.current_index ∧
    st2.current_index ≤ st.current_index + 2 := by
  cases h with
  | turn o stx input r hp =>
    rcases process_shape o st input r hp with
      ⟨hg, hr⟩ | ⟨nf, hg, hr⟩ | ⟨nf, n0, rest, hg, hname, hsp, hcase⟩ |
      ⟨nf, v, hg, hn1, hn2, ho, hv, hr⟩
    · rw [hr]
      exact ⟨Nat.le_refl _, Nat.le_add_right _ 2⟩
    · rw [hr]
      exact ⟨Nat.le_refl _, Nat.le_add_right _ 2⟩
    · rcases hcase with ⟨hrest, hr⟩ | ⟨hrest, hr⟩ <;>
        (rw [hr, pnf_state]; dsimp only; omega)
    · rw [hr, pnf_state]
      dsimp only
      omega
  | commitments stx input =>
    rw [commit_state]
    dsimp only
    omega
  | upload stx field input =>
    rw [upload_index]
    omega

/-- Witness for the amended C3 at one `handle_commitments` step. -/
theorem C3_pointer_monotone_witness :
    initState.current_index ≤ (handle_commitments initState "gym").state.current_index ∧
    (handle_commitments initState "gym").state.current_index
      ≤ initState.current_index + 2 :=
  C3_pointer_monotone initState (handle_commitments initState "gym").state
    (Step.commitments initState "gym")

/-- Counterexample to claim C3 as stated: from the reachable fresh state,
`handle_commitments` advances the pointer by one while the number of
non-absent plan fields stays unchanged, so the pointer does not advance
by exactly one per successfully filled plan field. -/
theorem C3_pointer_counterexample :
    Reachable initState ∧
    (handle_commitments initState "gym").state.current_index
        = initState.current_index + 1 ∧
    countFilled (handle_commitments initState "gym").state = countFilled initState :=
  ⟨Relation.ReflTransGen.refl, by decide, by decide⟩

end Chatbot
